import Mathlib

/-!
Shallow embedding of the todo-list task store implemented in `src/Todo.py`.

The persisted file `tasks.json` is modelled as `Option Json`: `none` when the
file does not exist, `some j` when it holds the JSON value `j` (the textual
JSON layer is the identity on the values this program writes: objects with
string keys whose values are integers, strings and nulls, so we work at the
value level).  Each interactive function of the source is embedded as a
function from the parameters the user would type (already past the thin
`input()` prompting glue) and the file state to the new file state and, where
relevant, the operation's result.
-/

namespace TodoApp

/-- JSON values, as far as this program produces and consumes them
(`json.dump` / `json.load` in `Todo.py`). -/
inductive Json where
  | null : Json
  | str : String → Json
  | num : Int → Json
  | arr : List Json → Json
  | obj : List (String × Json) → Json

/-- `class Priority(Enum)` of `Todo.py`, in definition order LOW, MEDIUM, HIGH
(the order of `list(Priority)`). -/
inductive Priority where
  | LOW : Priority
  | MEDIUM : Priority
  | HIGH : Priority
deriving DecidableEq

/-- `priority.name` in Python: the member name as a string. -/
def Priority.name : Priority → String
  | .LOW => "LOW"
  | .MEDIUM => "MEDIUM"
  | .HIGH => "HIGH"

/-- `list(Priority)` — members in definition order. -/
def priorityMembers : List Priority := [.LOW, .MEDIUM, .HIGH]

/-- `class Status(Enum)` of `Todo.py`, in definition order PENDING, COMPLETED,
IN_PROGRESS (the order of `list(Status)`). -/
inductive Status where
  | PENDING : Status
  | COMPLETED : Status
  | IN_PROGRESS : Status
deriving DecidableEq

/-- `status.name` in Python: the member name as a string. -/
def Status.name : Status → String
  | .PENDING => "PENDING"
  | .COMPLETED => "COMPLETED"
  | .IN_PROGRESS => "IN_PROGRESS"

/-- A task record, with exactly the fields built in `add_task`
(`Todo.py` lines 69–78).  `priority` and `status` hold the enum member names
as strings, as stored on disk. -/
structure Task where
  id : Int
  task : String
  priority : String
  status : String
  category : String
  created : String
  due_date : Option String
  completed_date : Option String
deriving DecidableEq

/-- Encoding of an optional string field (`due_date`, `completed_date`):
Python `None` becomes JSON `null`. -/
def encodeOptStr : Option String → Json
  | none => Json.null
  | some s => Json.str s

/-- The JSON object `json.dump` writes for one task dict
(field order as in the dict literal of `add_task`). -/
def encodeTask (t : Task) : Json :=
  Json.obj [("id", Json.num t.id), ("task", Json.str t.task),
    ("priority", Json.str t.priority), ("status", Json.str t.status),
    ("category", Json.str t.category), ("created", Json.str t.created),
    ("due_date", encodeOptStr t.due_date),
    ("completed_date", encodeOptStr t.completed_date)]

/-- The JSON array `save_tasks` writes for the whole collection. -/
def encodeTasks (tasks : List Task) : Json :=
  Json.arr (tasks.map encodeTask)

/-- Field lookup in a JSON object (dict access on a loaded task). -/
def Json.getField : Json → String → Option Json
  | Json.obj members, key => members.lookup key
  | _, _ => none

/-- Read a JSON value as a string. -/
def Json.asStr : Json → Option String
  | Json.str s => some s
  | _ => none

/-- Read a JSON value as an integer. -/
def Json.asInt : Json → Option Int
  | Json.num n => some n
  | _ => none

/-- Read a JSON value as an optional string (null ⇒ `none`). -/
def Json.asOptStr : Json → Option (Option String)
  | Json.null => some none
  | Json.str s => some (some s)
  | _ => none

/-- Decoding of one task record from its JSON object: the dict-shaped value
`json.load` hands back, viewed through the fixed field schema of §3/§6. -/
def decodeTask (j : Json) : Option Task := do
  let id ← (← j.getField "id").asInt
  let task ← (← j.getField "task").asStr
  let priority ← (← j.getField "priority").asStr
  let status ← (← j.getField "status").asStr
  let category ← (← j.getField "category").asStr
  let created ← (← j.getField "created").asStr
  let due_date ← (← j.getField "due_date").asOptStr
  let completed_date ← (← j.getField "completed_date").asOptStr
  pure ⟨id, task, priority, status, category, created, due_date, completed_date⟩

/-- Decoding of a list of task records. -/
def decodeTaskList : List Json → Option (List Task)
  | [] => some []
  | j :: js => do
    let t ← decodeTask j
    let ts ← decodeTaskList js
    pure (t :: ts)

/-- Decoding of the whole file content. -/
def decodeTasks : Json → Option (List Task)
  | Json.arr elems => decodeTaskList elems
  | _ => none

/-- `load_tasks` (`Todo.py` lines 18–27): missing file ⇒ empty list; otherwise
the parsed content.  A present file whose JSON value is not a task array is
treated as empty (the interactive program would fail on such a state; the
program's own `save_tasks` never produces one). -/
def load_tasks (fs : Option Json) : List Task :=
  match fs with
  | none => []
  | some j => (decodeTasks j).getD []

/-- `save_tasks` (`Todo.py` lines 29–35): overwrites the file with the JSON
dump of the full sequence, regardless of prior content. -/
def save_tasks (tasks : List Task) : Option Json :=
  some (encodeTasks tasks)

/-- Python's `str.strip()`: drop leading and trailing whitespace.  (Defined
on the character list so that it reduces by computation; it agrees with
Python on the whitespace these inputs contain.) -/
def pyStrip (s : String) : String :=
  ⟨((s.data.dropWhile Char.isWhitespace).reverse.dropWhile Char.isWhitespace).reverse⟩

/-- Python's `str.lower()`, on the character list.  (`Char.toLower` lowers
ASCII letters, which covers every string this model ranges over.) -/
def pyLower (s : String) : String :=
  ⟨s.data.map Char.toLower⟩

/-- First index of the task with the given id: the linear scan
`for i, task in enumerate(tasks): if task.get("id") == task_id: break`
shared by `remove_task`, `update_task_status` and `edit_task`. -/
def findTaskIndex (tasks : List Task) (task_id : Int) : Option Nat :=
  tasks.findIdx? (fun t => t.id == task_id)

/-- `add_task` (`Todo.py` lines 37–83), past the prompting glue: `description`
is the raw text typed (the function strips it and rejects the empty result),
`priority` is the already-selected member (choice parsing defaults to MEDIUM
on invalid input), `due_date` is the already-validated optional date, and
`created` stands for `datetime.now().strftime(...)`.  The new id is
`len(load_tasks()) + 1`. -/
def add_task (description : String) (priority : Priority) (category : String)
    (due_date : Option String) (created : String) (fs : Option Json) : Option Json :=
  let task_text := pyStrip description
  if task_text = "" then fs
  else
    let cat := if pyStrip category = "" then "General" else pyStrip category
    let task_data : Task :=
      { id := (load_tasks fs).length + 1, task := task_text, priority := priority.name,
        status := Status.PENDING.name, category := cat, created := created,
        due_date := due_date, completed_date := none }
    save_tasks (load_tasks fs ++ [task_data])

/-- `remove_task` (`Todo.py` lines 122–146): pops the first task whose id
matches and saves; otherwise reports "Task not found" (modelled as the `none`
result) and does not write the file.  Returns the new file state and the
removed task. -/
def remove_task (task_id : Int) (fs : Option Json) : Option Json × Option Task :=
  let tasks := load_tasks fs
  match findTaskIndex tasks task_id with
  | some i => (save_tasks (tasks.eraseIdx i), tasks[i]?)
  | none => (fs, none)

/-- `update_task_status` (`Todo.py` lines 148–186), past the prompting glue:
`new_status` is the already-selected member, `now` stands for
`datetime.now().strftime(...)`.  Entering COMPLETED sets `completed_date`,
any other status clears it. -/
def update_task_status (task_id : Int) (new_status : Status) (now : String)
    (fs : Option Json) : Option Json :=
  let tasks := load_tasks fs
  match findTaskIndex tasks task_id with
  | none => fs
  | some i =>
    match tasks[i]? with
    | none => fs
    | some t =>
      let stamp := if new_status = Status.COMPLETED then some now else none
      save_tasks (tasks.set i { t with status := new_status.name, completed_date := stamp })

/-- Python list indexing `l[i]` with negative-index wrap-around;
`none` is an `IndexError`. -/
def pyListGet (l : List α) (i : Int) : Option α :=
  if 0 ≤ i then l[i.toNat]?
  else if 0 ≤ i + l.length then l[(i + (l.length : Int)).toNat]?
  else none

/-- The three in-place field updates of `edit_task` (`Todo.py` lines 211–230),
applied in source order to the found task: a stripped-nonempty description
replaces `task`; a priority choice that indexes a member of `list(Priority)`
under Python indexing replaces `priority` (empty input, an unparsable number
and an `IndexError` all keep the current value); a stripped-nonempty category
replaces `category`.  All other fields are untouched. -/
def editTask3 (t0 : Task) (new_description : String) (priority_choice : Option Int)
    (new_category : String) : Task :=
  let t1 := if pyStrip new_description = "" then t0
    else { t0 with task := pyStrip new_description }
  let t2 := match priority_choice with
    | none => t1
    | some c =>
      match pyListGet priorityMembers (c - 1) with
      | some p => { t1 with priority := p.name }
      | none => t1
  if pyStrip new_category = "" then t2 else { t2 with category := pyStrip new_category }

/-- `edit_task` (`Todo.py` lines 188–236): `new_description` and
`new_category` are the raw inputs, `priority_choice` the integer parsed from
a non-empty priority input (`none` for empty or unparsable input).  If no
task has the given id, reports "Task not found" and does not write the file;
otherwise applies the `editTask3` field updates to the found task and saves
the whole sequence. -/
def edit_task (task_id : Int) (new_description : String) (priority_choice : Option Int)
    (new_category : String) (fs : Option Json) : Option Json :=
  let tasks := load_tasks fs
  match findTaskIndex tasks task_id with
  | none => fs
  | some i =>
    match tasks[i]? with
    | none => fs
    | some t0 =>
      save_tasks (tasks.set i (editTask3 t0 new_description priority_choice new_category))

/-- The priority string after an edit: a supplied choice that indexes a
member of `list(Priority)` replaces the value, anything else keeps it. -/
def priorityAfterEdit (old : String) (priority_choice : Option Int) : String :=
  match priority_choice with
  | none => old
  | some c =>
    match pyListGet priorityMembers (c - 1) with
    | some p => p.name
    | none => old

/-- The sort rank of a stored priority string:
`priority_order = {HIGH: 0, MEDIUM: 1, LOW: 2}` with `.get(..., 1)`
(`Todo.py` line 102–103). -/
def priorityRank (p : String) : Nat :=
  if p = Priority.HIGH.name then 0
  else if p = Priority.MEDIUM.name then 1
  else if p = Priority.LOW.name then 2
  else 1

/-- The sort key of `list_tasks`: `(priority_order.get(...), x.get("created", ""))`. -/
def taskKey (t : Task) : Nat × String := (priorityRank t.priority, t.created)

/-- Lexicographic comparison of sort keys, as Python compares the key tuples. -/
def taskLE (a b : Task) : Bool :=
  decide (priorityRank a.priority < priorityRank b.priority)
    || (decide (priorityRank a.priority = priorityRank b.priority)
        && decide (a.created ≤ b.created))

/-- The filtering stage of `list_tasks` (`Todo.py` lines 89–92): status filter
is an exact match on the stored status name, category filter is
case-insensitive exact. -/
def filtered_tasks (filter_status : Option String) (filter_category : Option String)
    (fs : Option Json) : List Task :=
  let tasks := load_tasks fs
  let tasks := match filter_status with
    | some s => tasks.filter (fun t => t.status == s)
    | none => tasks
  match filter_category with
  | some c => tasks.filter (fun t => pyLower t.category == pyLower c)
  | none => tasks

/-- `list_tasks` (`Todo.py` lines 85–120): the displayed order — filter, then
`tasks.sort(key=...)`, a stable sort by the key tuple.  (`mergeSort` with the
total transitive comparison `taskLE` is extensionally the same stable sort.) -/
def list_tasks (filter_status : Option String) (filter_category : Option String)
    (fs : Option Json) : List Task :=
  (filtered_tasks filter_status filter_category fs).mergeSort taskLE

/-- Python's substring test `needle in hay`, on code points. -/
def strContains (hay needle : String) : Bool := decide (needle.data <:+: hay.data)

/-- The match predicate of `search_tasks` (`Todo.py` lines 249–250):
the (already lowered) keyword occurs in the lowered description or the
lowered category. -/
def taskMatches (keyword : String) (t : Task) : Bool :=
  strContains (pyLower t.task) keyword || strContains (pyLower t.category) keyword

/-- The accumulation loop of `search_tasks` (`Todo.py` lines 248–251). -/
def searchLoop (keyword : String) : List Task → List Task
  | [] => []
  | t :: ts => if taskMatches keyword t then t :: searchLoop keyword ts else searchLoop keyword ts

/-- `search_tasks` (`Todo.py` lines 238–266): the keyword is the raw input,
which the function strips and lowers; an empty result is rejected ("Please
enter a search keyword", modelled as `none`).  Matches are returned in
storage order. -/
def search_tasks (keyword : String) (fs : Option Json) : Option (List Task) :=
  let kw := pyLower (pyStrip keyword)
  if kw = "" then none
  else some (searchLoop kw (load_tasks fs))

/-- The figures printed by `show_statistics` (`Todo.py` lines 268–305). -/
structure Stats where
  total : Nat
  completed : Nat
  pending : Nat
  in_progress : Nat
  completedPct : String
  pendingPct : String
  inProgressPct : String
  high : Nat
  medium : Nat
  low : Nat
  categories : List (String × Nat)
deriving DecidableEq

/-- Python's `f"{count/total*100:.1f}"` for `0 < total`: the percentage
rendered to one decimal place, rounding ties to even.  (Python rounds the
binary64 value of `count/total*100`; on the exact rational this coincides
except where the float rounds across a decimal boundary, which does not occur
at the scales this CLI handles.) -/
def pct1 (count total : Nat) : String :=
  let num := 1000 * count
  let q := num / total
  let r := num % total
  let tenths := if 2 * r < total then q
    else if total < 2 * r then q + 1
    else if q % 2 = 0 then q else q + 1
  toString (tenths / 10) ++ "." ++ toString (tenths % 10)

/-- One step of the category tally `categories[cat] = categories.get(cat, 0) + 1`,
keeping dict insertion order. -/
def bumpCategory (counts : List (String × Nat)) (cat : String) : List (String × Nat) :=
  match counts with
  | [] => [(cat, 1)]
  | (c, n) :: rest => if c = cat then (c, n + 1) :: rest else (c, n) :: bumpCategory rest cat

/-- The category tally of `show_statistics` (`Todo.py` lines 286–289). -/
def categoryCounts (tasks : List Task) : List (String × Nat) :=
  tasks.foldl (fun acc t => bumpCategory acc t.category) []

/-- `sorted(categories.items())`: pairs compared lexicographically (keys are
distinct, so effectively alphabetically by category name). -/
def catLE (a b : String × Nat) : Bool :=
  decide (a.1 < b.1) || (decide (a.1 = b.1) && decide (a.2 ≤ b.2))

/-- `show_statistics` (`Todo.py` lines 268–305): an empty store prints
"No tasks to analyze" and returns before any figure is computed (modelled as
`none` — in particular no percentage, hence no division, is evaluated);
otherwise the printed figures. -/
def show_statistics (fs : Option Json) : Option Stats :=
  let tasks := load_tasks fs
  if tasks.isEmpty then none
  else
    let total := tasks.length
    let completed := (tasks.filter (fun t => t.status == Status.COMPLETED.name)).length
    let pending := (tasks.filter (fun t => t.status == Status.PENDING.name)).length
    let in_progress := (tasks.filter (fun t => t.status == Status.IN_PROGRESS.name)).length
    some { total := total, completed := completed, pending := pending,
           in_progress := in_progress,
           completedPct := pct1 completed total, pendingPct := pct1 pending total,
           inProgressPct := pct1 in_progress total,
           high := (tasks.filter (fun t => t.priority == Priority.HIGH.name)).length,
           medium := (tasks.filter (fun t => t.priority == Priority.MEDIUM.name)).length,
           low := (tasks.filter (fun t => t.priority == Priority.LOW.name)).length,
           categories := (categoryCounts tasks).mergeSort catLE }

/-- The operations reachable from the menu loop, with the parameters the user
supplies. -/
inductive Op where
  | add (description : String) (priority : Priority) (category : String)
      (due_date : Option String) (created : String) : Op
  | remove (task_id : Int) : Op
  | updateStatus (task_id : Int) (new_status : Status) (now : String) : Op
  | edit (task_id : Int) (new_description : String) (priority_choice : Option Int)
      (new_category : String) : Op
  | listOp (filter_status : Option String) (filter_category : Option String) : Op
  | search (keyword : String) : Op
  | stats : Op

/-- Effect of each menu operation on the backing file.  `list_tasks`,
`search_tasks` and `show_statistics` never call `save_tasks` in the source,
so they leave the file as it is. -/
def Op.apply : Op → Option Json → Option Json
  | .add d p c dd cr, fs => add_task d p c dd cr fs
  | .remove i, fs => (remove_task i fs).1
  | .updateStatus i s now, fs => update_task_status i s now fs
  | .edit i d pc c, fs => edit_task i d pc c fs
  | .listOp _ _, fs => fs
  | .search _, fs => fs
  | .stats, fs => fs

/-- File states reachable from a fresh start (no `tasks.json`) by menu
operations. -/
inductive Reachable : Option Json → Prop where
  | init : Reachable none
  | step (op : Op) {fs : Option Json} : Reachable fs → Reachable (op.apply fs)

/-- §3 invariant, per task: the completion timestamp is present iff the
status is COMPLETED. -/
def statusDateOK (t : Task) : Bool :=
  t.completed_date.isSome == (t.status == Status.COMPLETED.name)

/-- Sample data for instantiating the theorems below on concrete stores. -/
def exTask1 : Task :=
  ⟨7, "Pay rent", "HIGH", "PENDING", "Bills", "2024-01-01 09:00:00", none, none⟩

def exTask2 : Task :=
  ⟨2, "Finish project", "MEDIUM", "PENDING", "General", "2024-01-02 09:00:00", none, none⟩

def exTask3 : Task :=
  ⟨3, "Walk dog", "LOW", "COMPLETED", "Home", "2024-01-03 09:00:00", none,
    some "2024-01-04 10:00:00"⟩

def exStore1 : Option Json := save_tasks [exTask1]

def exStore2 : Option Json := save_tasks [exTask1, exTask2]

def exStore3 : Option Json := save_tasks [exTask1, exTask2, exTask3]

/-- The id-collision scenario: add two tasks, remove the one with the lower
id, add a third. -/
def dupState : Option Json :=
  (Op.add "c" Priority.LOW "" none "2024-01-01 12:00:00").apply
    ((Op.remove 1).apply
      ((Op.add "b" Priority.HIGH "" none "2024-01-01 11:00:00").apply
        ((Op.add "a" Priority.MEDIUM "" none "2024-01-01 10:00:00").apply none)))

/-- A small reachable store: one task added and then completed. -/
def reachState1 : Option Json :=
  (Op.updateStatus 1 Status.COMPLETED "2024-01-02 08:00:00").apply
    ((Op.add "Buy milk" Priority.MEDIUM "" none "2024-01-01 10:00:00").apply none)

theorem decodeTask_encodeTask (t : Task) : decodeTask (encodeTask t) = some t := by
  obtain ⟨id, task, priority, status, category, created, due_date, completed_date⟩ := t
  cases due_date <;> cases completed_date <;> rfl

theorem decodeTaskList_map_encodeTask (tasks : List Task) :
    decodeTaskList (tasks.map encodeTask) = some tasks := by
  induction tasks with
  | nil => rfl
  | cons t ts ih => simp [List.map_cons, decodeTaskList, decodeTask_encodeTask, ih]

theorem load_save (tasks : List Task) : load_tasks (save_tasks tasks) = tasks := by
  simp [load_tasks, save_tasks, encodeTasks, decodeTasks, decodeTaskList_map_encodeTask]

/-- **C1** Round-trip persistence: saving any non-empty valid task sequence and
loading it back yields the same sequence, in content and order. -/
theorem save_load_roundtrip (tasks : List Task) (hne : tasks ≠ []) :
    load_tasks (save_tasks tasks) = tasks :=
  load_save tasks

/-- Witness for C1 at a concrete one-task sequence. -/
theorem save_load_roundtrip_witness :
    ([⟨1, "Buy milk", "MEDIUM", "PENDING", "General", "2024-01-01 10:00:00", none, none⟩] : List Task) ≠ []
    ∧ load_tasks (save_tasks [⟨1, "Buy milk", "MEDIUM", "PENDING", "General", "2024-01-01 10:00:00", none, none⟩])
      = [⟨1, "Buy milk", "MEDIUM", "PENDING", "General", "2024-01-01 10:00:00", none, none⟩] :=
  ⟨by simp, save_load_roundtrip _ (by simp)⟩

/-- The loaded sequence after a successful `add_task`: the old sequence with
the new record appended, its id the old count plus one. -/
theorem load_add_task (description : String) (priority : Priority) (category : String)
    (due_date : Option String) (created : String) (fs : Option Json)
    (h : pyStrip description ≠ "") :
    load_tasks (add_task description priority category due_date created fs)
      = load_tasks fs ++
        [{ id := (load_tasks fs).length + 1, task := pyStrip description,
           priority := priority.name, status := Status.PENDING.name,
           category := if pyStrip category = "" then "General" else pyStrip category,
           created := created, due_date := due_date, completed_date := none }] := by
  simp [add_task, h, load_save]

/-- **C2** Add assigns the new task's id as the current count of stored tasks
plus one: on a store holding N tasks (whatever their id values) the new task
is appended with id = N + 1, so on an empty store it gets id 1. -/
theorem add_task_id_is_count_plus_one (description : String) (priority : Priority)
    (category : String) (due_date : Option String) (created : String) (fs : Option Json)
    (h : pyStrip description ≠ "") :
    load_tasks (add_task description priority category due_date created fs)
      = load_tasks fs ++
        [{ id := (load_tasks fs).length + 1, task := pyStrip description,
           priority := priority.name, status := Status.PENDING.name,
           category := if pyStrip category = "" then "General" else pyStrip category,
           created := created, due_date := due_date, completed_date := none }] :=
  load_add_task description priority category due_date created fs h

/-- Witness for C2 on a store holding one task with id 7: the new task gets
id 2, not 8. -/
theorem add_task_id_is_count_plus_one_witness :
    pyStrip "Buy milk" ≠ ""
    ∧ load_tasks (add_task "Buy milk" Priority.MEDIUM "" none "2024-01-05 10:00:00" exStore1)
      = load_tasks exStore1 ++
        [{ id := (load_tasks exStore1).length + 1, task := pyStrip "Buy milk",
           priority := Priority.MEDIUM.name, status := Status.PENDING.name,
           category := if pyStrip "" = "" then "General" else pyStrip "",
           created := "2024-01-05 10:00:00", due_date := none, completed_date := none }] :=
  ⟨by decide,
   add_task_id_is_count_plus_one "Buy milk" Priority.MEDIUM "" none "2024-01-05 10:00:00"
     exStore1 (by decide)⟩

/-- **C3** Task ids are not unique across reachable states: after adding two
tasks, removing the task with the lower id, and adding a third, the store
holds two distinct tasks that share id 2. -/
theorem reachable_duplicate_ids :
    Reachable dupState
      ∧ (load_tasks dupState).map Task.id = [2, 2]
      ∧ (load_tasks dupState).map Task.task = ["b", "c"] :=
  ⟨Reachable.step _ (Reachable.step _ (Reachable.step _ (Reachable.step _ Reachable.init))),
   by decide, by decide⟩

theorem findTaskIndex_none (tasks : List Task) (task_id : Int)
    (h : findTaskIndex tasks task_id = none) :
    tasks.find? (fun t => t.id == task_id) = none
    ∧ tasks.eraseP (fun t => t.id == task_id) = tasks := by
  rw [findTaskIndex, List.findIdx?_eq_none_iff] at h
  constructor
  · rw [List.find?_eq_none]
    intro x hx
    simp [h x hx]
  · exact List.eraseP_of_forall_not (fun a ha => by simp [h a ha])

theorem findTaskIndex_some (tasks : List Task) (task_id : Int) (i : Nat)
    (h : findTaskIndex tasks task_id = some i) :
    i < tasks.length
    ∧ tasks.find? (fun t => t.id == task_id) = tasks[i]?
    ∧ tasks.eraseP (fun t => t.id == task_id) = tasks.eraseIdx i := by
  rw [findTaskIndex] at h
  induction tasks generalizing i with
  | nil => simp at h
  | cons a t ih =>
    by_cases hpa : (a.id == task_id) = true
    · rw [List.findIdx?_cons, if_pos hpa] at h
      obtain rfl : i = 0 := by simpa using h.symm
      refine ⟨by simp, ?_, ?_⟩
      · simp [List.find?_cons, hpa]
      · simp [List.eraseP_cons, hpa]
    · rw [List.findIdx?_cons, if_neg hpa, List.findIdx?_succ] at h
      obtain ⟨j, hj, rfl⟩ := Option.map_eq_some'.mp h
      obtain ⟨hlen, hfind, herase⟩ := ih j hj
      refine ⟨by simpa using Nat.succ_lt_succ hlen, ?_, ?_⟩
      · simp [List.find?_cons, hpa, hfind]
      · simp [List.eraseP_cons, hpa, herase]

theorem all_set_of_all {l : List α} {p : α → Bool} (h : l.all p = true) {b : α}
    (hb : p b = true) (k : Nat) : (l.set k b).all p = true := by
  rw [List.all_eq_true] at h ⊢
  intro x hx
  rcases List.mem_or_eq_of_mem_set hx with h' | rfl
  · exact h x h'
  · exact hb

/-- `editTask3` spelled out field by field: the three optionally-supplied
fields are replaced, the five others are carried over unchanged. -/
theorem editTask3_eq (t0 : Task) (d : String) (pc : Option Int) (c : String) :
    editTask3 t0 d pc c =
      { id := t0.id, task := if pyStrip d = "" then t0.task else pyStrip d,
        priority := priorityAfterEdit t0.priority pc, status := t0.status,
        category := if pyStrip c = "" then t0.category else pyStrip c,
        created := t0.created, due_date := t0.due_date,
        completed_date := t0.completed_date } := by
  unfold editTask3 priorityAfterEdit
  rcases pc with _ | ch
  · by_cases hd : pyStrip d = "" <;> by_cases hc : pyStrip c = "" <;> simp [hd, hc]
  · rcases hp : pyListGet priorityMembers (ch - 1) with _ | p <;>
      by_cases hd : pyStrip d = "" <;> by_cases hc : pyStrip c = "" <;> simp [hd, hc, hp]

/-- **C4** On every reachable store state, each stored task's completion
timestamp is present exactly when its status is COMPLETED: `add_task` creates
tasks with status PENDING and no completion timestamp, `update_task_status`
sets the timestamp exactly on a COMPLETED transition and clears it otherwise,
and every other operation preserves the property. -/
theorem reachable_completed_iff_status (fs : Option Json) (h : Reachable fs) :
    (load_tasks fs).all statusDateOK = true := by
  induction h with
  | init => rfl
  | step op h ih =>
    rename_i fs
    cases op with
    | add d p c dd cr =>
      simp only [Op.apply]
      by_cases hd : pyStrip d = ""
      · simpa [add_task, hd] using ih
      · rw [load_add_task d p c dd cr _ hd, List.all_append, ih]
        rfl
    | remove i =>
      simp only [Op.apply, remove_task]
      cases hfind : findTaskIndex (load_tasks fs) i with
      | none => simpa [hfind] using ih
      | some k =>
        simp only [hfind, load_save]
        rw [List.all_eq_true] at ih ⊢
        intro x hx
        exact ih x ((List.eraseIdx_sublist _ k).subset hx)
    | updateStatus i s now =>
      simp only [Op.apply, update_task_status]
      cases hfind : findTaskIndex (load_tasks fs) i with
      | none => simpa [hfind] using ih
      | some k =>
        cases ht : (load_tasks fs)[k]? with
        | none => simpa [hfind, ht] using ih
        | some t =>
          simp only [hfind, ht, load_save]
          refine all_set_of_all ih ?_ k
          cases s <;> rfl
    | edit i d pc c =>
      simp only [Op.apply, edit_task]
      cases hfind : findTaskIndex (load_tasks fs) i with
      | none => simpa [hfind] using ih
      | some k =>
        cases ht : (load_tasks fs)[k]? with
        | none => simpa [hfind, ht] using ih
        | some t0 =>
          simp only [hfind, ht, load_save, editTask3_eq]
          refine all_set_of_all ih ?_ k
          have hmem : t0 ∈ load_tasks fs := by
            obtain ⟨hk, hget⟩ := List.getElem?_eq_some_iff.mp ht
            exact hget ▸ List.getElem_mem hk
          exact (List.all_eq_true.mp ih) t0 hmem
    | listOp sf cf => exact ih
    | search kw => exact ih
    | stats => exact ih

/-- Witness for C4 at a concrete reachable store (a task added and then
marked COMPLETED). -/
theorem reachable_completed_iff_status_witness :
    (load_tasks reachState1).all statusDateOK = true :=
  reachable_completed_iff_status reachState1
    (Reachable.step _ (Reachable.step _ Reachable.init))

/-- **C5** `remove_task` removes the first task whose id matches and persists
the remainder, returning the removed task; when no stored task has the id it
returns no task and leaves the file (hence the stored collection) unchanged. -/
theorem remove_task_spec (task_id : Int) (fs : Option Json) :
    load_tasks (remove_task task_id fs).1
        = (load_tasks fs).eraseP (fun t => t.id == task_id)
    ∧ (remove_task task_id fs).2 = (load_tasks fs).find? (fun t => t.id == task_id)
    ∧ ((load_tasks fs).find? (fun t => t.id == task_id) = none
        → remove_task task_id fs = (fs, none)) := by
  unfold remove_task
  cases hfind : findTaskIndex (load_tasks fs) task_id with
  | none =>
    obtain ⟨h1, h2⟩ := findTaskIndex_none _ _ hfind
    simp [hfind, h1, h2]
  | some k =>
    obtain ⟨hk, h1, h2⟩ := findTaskIndex_some _ _ _ hfind
    simp only [hfind]
    refine ⟨by rw [load_save, h2], by rw [h1], ?_⟩
    intro hnone
    have hsome := List.getElem?_eq_getElem hk
    rw [h1, hsome] at hnone
    exact (Option.some_ne_none _ hnone).elim

/-- Witness for C5: removing a non-existent id from a concrete store returns
no task and leaves the file untouched. -/
theorem remove_task_spec_witness :
    remove_task 99 exStore1 = (exStore1, none) :=
  (remove_task_spec 99 exStore1).2.2 (by rfl)

/-- **C9** `edit_task` with an absent id reports the task as not found and
leaves the file unchanged; with a present id it persists the sequence with
exactly the found task replaced: each supplied field takes its new value and
every other field — id, status, completion timestamp, creation timestamp,
due date — and every other task are preserved. -/
theorem edit_task_spec (task_id : Int) (d : String) (pc : Option Int) (c : String)
    (fs : Option Json) :
    (findTaskIndex (load_tasks fs) task_id = none → edit_task task_id d pc c fs = fs)
    ∧ (∀ i t0, findTaskIndex (load_tasks fs) task_id = some i
        → (load_tasks fs)[i]? = some t0
        → load_tasks (edit_task task_id d pc c fs)
            = (load_tasks fs).set i
              { id := t0.id, task := if pyStrip d = "" then t0.task else pyStrip d,
                priority := priorityAfterEdit t0.priority pc,
                status := t0.status,
                category := if pyStrip c = "" then t0.category else pyStrip c,
                created := t0.created, due_date := t0.due_date,
                completed_date := t0.completed_date }) := by
  constructor
  · intro h
    simp [edit_task, h]
  · intro i t0 hfind ht
    simp only [edit_task, hfind, ht, load_save, editTask3_eq]

/-- Witness for C9: editing only the description of the task with id 2. -/
theorem edit_task_spec_witness :
    load_tasks (edit_task 2 "Buy oat milk" none "" exStore2)
      = (load_tasks exStore2).set 1
        { id := exTask2.id,
          task := if pyStrip "Buy oat milk" = "" then exTask2.task else pyStrip "Buy oat milk",
          priority := priorityAfterEdit exTask2.priority none,
          status := exTask2.status,
          category := if pyStrip "" = "" then exTask2.category else pyStrip "",
          created := exTask2.created, due_date := exTask2.due_date,
          completed_date := exTask2.completed_date } :=
  (edit_task_spec 2 "Buy oat milk" none "" exStore2).2 1 exTask2 (by rfl) (by rfl)

theorem searchLoop_eq_filter (kw : String) (l : List Task) :
    searchLoop kw l = l.filter (taskMatches kw) := by
  induction l with
  | nil => rfl
  | cons t ts ih => by_cases h : taskMatches kw t <;> simp [searchLoop, List.filter_cons, h, ih]

theorem pyLower_eq_empty_iff (s : String) : pyLower s = "" ↔ s = "" := by
  cases s with
  | mk data =>
    cases data with
    | nil => simp [pyLower]
    | cons a l =>
      constructor <;> intro h <;> exact absurd (congrArg String.data h) (by simp [pyLower])

/-- **C7-counterexample** The keyword `" "` is non-empty and occurs in the
stored description "Finish project" as a case-insensitive substring, yet
`search_tasks` rejects it with the empty-keyword validation error (`none`)
instead of returning the matching task. -/
theorem search_nonempty_keyword_counterexample :
    (" " : String) ≠ ""
    ∧ strContains (pyLower exTask2.task) (pyLower " ") = true
    ∧ search_tasks " " exStore2 = none :=
  ⟨by decide, by decide, by rfl⟩

/-- **C7-amended** `search_tasks` fails with the validation error exactly
when the keyword is empty after stripping whitespace; otherwise it returns
exactly those stored tasks whose description or category contains the
stripped keyword as a case-insensitive substring, in storage order. -/
theorem search_tasks_spec (keyword : String) (fs : Option Json) :
    (pyStrip keyword = "" → search_tasks keyword fs = none)
    ∧ (pyStrip keyword ≠ "" → search_tasks keyword fs
        = some ((load_tasks fs).filter (taskMatches (pyLower (pyStrip keyword))))) := by
  constructor
  · intro h
    simp [search_tasks, h, pyLower]
  · intro h
    have hkw : pyLower (pyStrip keyword) ≠ "" := fun hc => h ((pyLower_eq_empty_iff _).mp hc)
    simp [search_tasks, hkw, searchLoop_eq_filter]

/-- Witness for C7-amended: searching "proj" returns the filtered matches
(the spec's own example store contains "Finish project"). -/
theorem search_tasks_spec_witness :
    pyStrip "proj" ≠ ""
    ∧ search_tasks "proj" exStore2
      = some ((load_tasks exStore2).filter (taskMatches (pyLower (pyStrip "proj")))) :=
  ⟨by decide, (search_tasks_spec "proj" exStore2).2 (by decide)⟩

/-- **C8** `show_statistics` on an empty store returns the no-tasks report
(total 0) before any percentage — hence any division — is computed; on a
store of 3 tasks with 2 PENDING and 1 COMPLETED it reports pending = 2 at
"66.7" percent and completed = 1 at "33.3" percent. -/
theorem show_statistics_spec (fs : Option Json) :
    (load_tasks fs = [] → show_statistics fs = none)
    ∧ ((load_tasks fs).length = 3
      → ((load_tasks fs).filter (fun t => t.status == Status.PENDING.name)).length = 2
      → ((load_tasks fs).filter (fun t => t.status == Status.COMPLETED.name)).length = 1
      → (show_statistics fs).map Stats.total = some 3
        ∧ (show_statistics fs).map Stats.pending = some 2
        ∧ (show_statistics fs).map Stats.pendingPct = some "66.7"
        ∧ (show_statistics fs).map Stats.completed = some 1
        ∧ (show_statistics fs).map Stats.completedPct = some "33.3") := by
  constructor
  · intro h
    simp [show_statistics, h]
  · intro h3 hp hc
    have h0 : (load_tasks fs).isEmpty = false := by
      cases hl : load_tasks fs with
      | nil => rw [hl] at h3; simp at h3
      | cons a l => rfl
    refine ⟨?_, ?_, ?_, ?_, ?_⟩ <;>
      · simp only [show_statistics, h0, Bool.false_eq_true, if_false, Option.map_some']
        simp only [hp, hc, h3]
        try rfl

/-- Witness for C8 at a concrete 3-task store with 2 PENDING and 1 COMPLETED
tasks. -/
theorem show_statistics_spec_witness :
    (load_tasks exStore3).length = 3
    ∧ ((load_tasks exStore3).filter (fun t => t.status == Status.PENDING.name)).length = 2
    ∧ ((load_tasks exStore3).filter (fun t => t.status == Status.COMPLETED.name)).length = 1
    ∧ ((show_statistics exStore3).map Stats.total = some 3
      ∧ (show_statistics exStore3).map Stats.pending = some 2
      ∧ (show_statistics exStore3).map Stats.pendingPct = some "66.7"
      ∧ (show_statistics exStore3).map Stats.completed = some 1
      ∧ (show_statistics exStore3).map Stats.completedPct = some "33.3") :=
  ⟨by rfl, by rfl, by rfl, (show_statistics_spec exStore3).2 (by rfl) (by rfl) (by rfl)⟩

/-- **C10** List, Search and Statistics are read-only: for every store state,
every status or category filter and every non-empty keyword, the operation
leaves the backing file — hence the persisted task collection — unchanged
(they never call `save_tasks`). -/
theorem read_ops_leave_store_unchanged (fs : Option Json)
    (filter_status filter_category : Option String) (keyword : String)
    (hkw : keyword ≠ "") :
    (Op.listOp filter_status filter_category).apply fs = fs
    ∧ (Op.search keyword).apply fs = fs
    ∧ Op.stats.apply fs = fs :=
  ⟨rfl, rfl, rfl⟩

/-- Witness for C10 at a concrete store, filter and keyword. -/
theorem read_ops_leave_store_unchanged_witness :
    ("wor" : String) ≠ ""
    ∧ ((Op.listOp (some "PENDING") none).apply exStore2 = exStore2
      ∧ (Op.search "wor").apply exStore2 = exStore2
      ∧ Op.stats.apply exStore2 = exStore2) :=
  ⟨by decide, read_ops_leave_store_unchanged exStore2 (some "PENDING") none "wor" (by decide)⟩

theorem taskLE_iff (a b : Task) :
    taskLE a b = true
      ↔ (priorityRank a.priority < priorityRank b.priority
        ∨ (priorityRank a.priority = priorityRank b.priority ∧ a.created ≤ b.created)) := by
  simp [taskLE, Bool.or_eq_true, Bool.and_eq_true, decide_eq_true_eq]

theorem taskLE_trans : ∀ (a b c : Task), taskLE a b → taskLE b c → taskLE a c := by
  intro a b c h1 h2
  rw [taskLE_iff] at *
  rcases h1 with h1 | ⟨h1, h1c⟩ <;> rcases h2 with h2 | ⟨h2, h2c⟩
  · exact Or.inl (h1.trans h2)
  · exact Or.inl (h2 ▸ h1)
  · exact Or.inl (h1 ▸ h2)
  · exact Or.inr ⟨h1.trans h2, le_trans h1c h2c⟩

theorem taskLE_total : ∀ (a b : Task), taskLE a b || taskLE b a := by
  intro a b
  rw [Bool.or_eq_true, taskLE_iff, taskLE_iff]
  rcases Nat.lt_trichotomy (priorityRank a.priority) (priorityRank b.priority) with h | h | h
  · exact Or.inl (Or.inl h)
  · rcases le_total a.created b.created with hc | hc
    · exact Or.inl (Or.inr ⟨h, hc⟩)
    · exact Or.inr (Or.inr ⟨h.symm, hc⟩)
  · exact Or.inr (Or.inl h)

/-- A stable sort leaves the elements sharing any fixed sort key in their
original relative order: filtering the sorted list down to such elements
gives the same list as filtering the input. -/
theorem filter_mergeSort_of_const {l : List Task} (p : Task → Bool)
    (hp : ∀ a b, p a = true → p b = true → taskLE a b = true) :
    (l.mergeSort taskLE).filter p = l.filter p := by
  have hpair : (l.filter p).Pairwise (fun a b => taskLE a b = true) := by
    apply List.pairwise_of_forall_mem_list
    intro a ha b hb
    exact hp a b (List.mem_filter.mp ha).2 (List.mem_filter.mp hb).2
  have hsub2 : List.Sublist (l.filter p) (l.mergeSort taskLE) :=
    List.sublist_mergeSort taskLE_trans taskLE_total hpair (List.filter_sublist l)
  have hff : (l.filter p).filter p = l.filter p :=
    List.filter_eq_self.mpr (fun a ha => (List.mem_filter.mp ha).2)
  have hsub3 : List.Sublist (l.filter p) ((l.mergeSort taskLE).filter p) := by
    have h := hsub2.filter p
    rwa [hff] at h
  have hperm : List.Perm ((l.mergeSort taskLE).filter p) (l.filter p) :=
    (List.mergeSort_perm l taskLE).filter p
  exact (hsub3.eq_of_length hperm.length_eq.symm).symm

/-- **C6** The `list_tasks` output is sorted: at any two positions i < j the
priority ranks (High = 0, Medium = 1, Low = 2) are non-decreasing and, when
equal, the creation strings are non-decreasing; and the sort is stable: the
tasks sharing any fixed sort key appear in their original (filtered storage)
order. -/
theorem list_tasks_sorted_stable (filter_status filter_category : Option String)
    (fs : Option Json) (i j : Nat) (hij : i < j)
    (hj : j < (list_tasks filter_status filter_category fs).length) :
    (priorityRank ((list_tasks filter_status filter_category fs).get
          ⟨i, Nat.lt_trans hij hj⟩).priority
        ≤ priorityRank ((list_tasks filter_status filter_category fs).get ⟨j, hj⟩).priority
      ∧ (priorityRank ((list_tasks filter_status filter_category fs).get
            ⟨i, Nat.lt_trans hij hj⟩).priority
          = priorityRank ((list_tasks filter_status filter_category fs).get ⟨j, hj⟩).priority
        → ((list_tasks filter_status filter_category fs).get ⟨i, Nat.lt_trans hij hj⟩).created
            ≤ ((list_tasks filter_status filter_category fs).get ⟨j, hj⟩).created))
    ∧ ∀ k : Nat × String,
        (list_tasks filter_status filter_category fs).filter (fun t => decide (taskKey t = k))
          = (filtered_tasks filter_status filter_category fs).filter
              (fun t => decide (taskKey t = k)) := by
  constructor
  · simp only [list_tasks]
    have hpair :=
      List.sorted_mergeSort taskLE_trans taskLE_total
        (filtered_tasks filter_status filter_category fs)
    have hle := (List.pairwise_iff_get.mp hpair) ⟨i, Nat.lt_trans hij hj⟩ ⟨j, hj⟩ hij
    rw [taskLE_iff] at hle
    rcases hle with h | ⟨h, hc⟩
    · exact ⟨Nat.le_of_lt h, fun he => absurd h (by rw [he]; exact lt_irrefl _)⟩
    · exact ⟨le_of_eq h, fun _ => hc⟩
  · intro k
    apply filter_mergeSort_of_const
    intro a b ha hb
    have ha' := of_decide_eq_true ha
    have hb' := of_decide_eq_true hb
    have hk : taskKey a = taskKey b := ha'.trans hb'.symm
    rw [taskLE_iff]
    exact Or.inr ⟨congrArg Prod.fst hk, le_of_eq (congrArg Prod.snd hk)⟩

/-- Witness for C6 on a concrete two-task store (one HIGH task created
earlier, one MEDIUM task created later). -/
theorem list_tasks_sorted_stable_witness :
    (list_tasks none none exStore2).filter
        (fun t => decide (taskKey t = ((0 : Nat), "2024-01-01 09:00:00")))
      = (filtered_tasks none none exStore2).filter
          (fun t => decide (taskKey t = ((0 : Nat), "2024-01-01 09:00:00"))) :=
  (list_tasks_sorted_stable none none exStore2 0 1 (by decide)
    (by simp only [list_tasks, List.length_mergeSort]; decide)).2
    ((0 : Nat), "2024-01-01 09:00:00")

end TodoApp
